import Mathlib

/-!
Shallow embedding of the AgentCore provisioning scripts
(`packages/agentcore-tools/destroy.sh`, which contains both the destroy
script and the companion deploy script) of the
guidance-for-vibe-coding-with-aws-mcp-servers repository.

Strings are modelled as `List Char`; a multi-line command output is a
`List (List Char)` (one entry per line), matching the line-oriented
behaviour of `grep`/`sed`.  External AWS control-plane calls are modelled
by oracle structures whose fields give each call's outcome.
-/

set_option maxRecDepth 20000

namespace AgentCore

abbrev Str := List Char

def strOf (s : String) : Str := s.data

/-- Test `isPre pat text`: `pat` occurs at the start of `text`. -/
def isPre : Str → Str → Bool
  | [], _ => true
  | _ :: _, [] => false
  | p :: ps, t :: ts => p == t && isPre ps ts

/-- Test `containsSub pat text`: `pat` occurs somewhere in `text`
(models fixed-string `grep`/glob `*pat*` containment). -/
def containsSub (pat : Str) : Str → Bool
  | [] => isPre pat []
  | t :: ts => isPre pat (t :: ts) || containsSub pat ts

/-- First index at which `pat` occurs in `text`. -/
def findSub (pat : Str) : Str → Option Nat
  | [] => if isPre pat [] then some 0 else none
  | t :: ts => if isPre pat (t :: ts) then some 0 else (findSub pat ts).map (· + 1)

/-- All indices at which `pat` occurs in `text`. -/
def occIdxs (pat text : Str) : List Nat :=
  (List.range (text.length + 1)).filter (fun i => isPre pat (text.drop i))

/-- Last index at which `pat` occurs in `text` (greedy `.*pat` anchoring in sed). -/
def lastSub (pat text : Str) : Option Nat :=
  (occIdxs pat text).getLast?

/-- ASCII lower-casing of a character (models `grep -i`). -/
def lowC (c : Char) : Char :=
  if 65 ≤ c.toNat && c.toNat ≤ 90 then Char.ofNat (c.toNat + 32) else c

def lowS (s : Str) : Str := s.map lowC

/-- A line of the response contains `pat` (models `grep -q pat`). -/
def grepHas (pat : Str) (resp : List Str) : Bool :=
  resp.any (fun l => containsSub pat l)

/-- Some line contains one of the (lower-case) patterns case-insensitively
(models `grep -qi "p1\|p2\|..."`). -/
def grepAnyCI (pats : List Str) (resp : List Str) : Bool :=
  resp.any (fun l => pats.any (fun p => containsSub p (lowS l)))

/-! ## Status extraction (`extract_status` in the deploy script) -/

def strREADY : Str := strOf "READY"
def strCREATING : Str := strOf "CREATING"
def strCREATE_FAILED : Str := strOf "CREATE_FAILED"

def readyPhrase : Str := strOf "Ready - Agent deployed and endpoint available"
def deployingPhrase : Str := strOf "Deploying - Agent created, endpoint starting"

def failPats : List Str := [strOf "failed", strOf "error", strOf "not found"]
def progressPats : List Str := [strOf "creating", strOf "deploying", strOf "updating"]

/-- A line matches the regex `Endpoint:.*READY`: it contains `Endpoint:`
followed (later in the same line) by `READY`. -/
def lineEndpointReady (l : Str) : Bool :=
  match findSub (strOf "Endpoint:") l with
  | none => false
  | some i => containsSub strREADY (l.drop (i + 9))

def isUpUnd (c : Char) : Bool := (65 ≤ c.toNat && c.toNat ≤ 90) || c.toNat == 95

/-- Per-line result of `sed 's/.*STATUS: *\([A-Z_]*\).*/\1/'` on a line that
contains `STATUS:`: greedy `.*` anchors at the last occurrence of `STATUS:`,
` *` consumes the following spaces, the capture is the maximal `[A-Z_]*` run. -/
def sedStatusCapture (l : Str) : Str :=
  match lastSub (strOf "STATUS:") l with
  | none => l
  | some i => ((l.drop (i + 7)).dropWhile (fun c => c == ' ')).takeWhile isUpUnd

/-- Join lines with newline characters (output of a multi-line pipeline). -/
def joinNL : List Str → Str
  | [] => []
  | [l] => l
  | l :: ls => l ++ '\n' :: joinNL ls

/-- Command substitution `$(...)` strips trailing newlines. -/
def stripTrailNL (s : Str) : Str :=
  (s.reverse.dropWhile (fun c => c == '\n')).reverse

/-- Method 4 of `extract_status`:
`echo "$response" | grep "STATUS:" | sed 's/.*STATUS: *\([A-Z_]*\).*/\1/'`. -/
def legacyStatus (resp : List Str) : Str :=
  stripTrailNL (joinNL ((resp.filter (fun l => containsSub (strOf "STATUS:") l)).map
    sedStatusCapture))

/-- The `extract_status` bash function: five methods tried in order, the first
one that sets a non-empty status wins; no match leaves the status empty. -/
def extract_status (resp : List Str) : Str :=
  if grepHas readyPhrase resp then strREADY
  else if grepHas deployingPhrase resp then strCREATING
  else if resp.any lineEndpointReady then strREADY
  else
    let legacy := legacyStatus resp
    if legacy ≠ [] then legacy
    else if grepAnyCI failPats resp then strCREATE_FAILED
    else if grepAnyCI progressPats resp then strCREATING
    else []

/-- The same mapping written as an ordered rule list, first match wins. -/
def statusRules : List (List Str → Option Str) :=
  [ fun r => if grepHas readyPhrase r then some strREADY else none,
    fun r => if grepHas deployingPhrase r then some strCREATING else none,
    fun r => if r.any lineEndpointReady then some strREADY else none,
    fun r => if legacyStatus r ≠ [] then some (legacyStatus r) else none,
    fun r => if grepAnyCI failPats r then some strCREATE_FAILED else none,
    fun r => if grepAnyCI progressPats r then some strCREATING else none ]

def firstRule {α β : Type} : List (α → Option β) → α → Option β
  | [], _ => none
  | f :: fs, x => match f x with
    | some y => some y
    | none => firstRule fs x

/-! ## Readiness poll loop (deploy script, `END_STATUS` loop) -/

/-- The string `" READY CREATE_FAILED DELETE_FAILED UPDATE_FAILED FAILED "`,
the loop guard `[[ " ${END_STATUS[@]} " =~ " ${STATUS} " ]]` searches in. -/
def endStatusLine : Str :=
  strOf " READY CREATE_FAILED DELETE_FAILED UPDATE_FAILED FAILED "

/-- Terminal-status test of the poll loop: `" STATUS "` occurs in the spaced
join of `END_STATUS` (the extracted statuses contain no regex metacharacters,
so the bash `=~` test is plain substring containment). -/
def isTerminalStatus (s : Str) : Bool :=
  containsSub (' ' :: (s ++ [' '])) endStatusLine

/-- One observation of the status source: the text printed by
`agentcore status` (split into lines) and the command's exit code. -/
structure StatusResp where
  text : List Str
  code : Nat
  deriving DecidableEq

/-- How a poll-loop execution ends. -/
inductive PollEnd
  | terminal (s : Str)      -- loop guard satisfied: terminal status reached
  | cmdFailed (code : Nat)  -- status command failed: script exits (set -e / exit 1)
  | emptyStatusExit         -- extracted status empty: script exits 1
  deriving DecidableEq

/-- Fuel-bounded execution of the readiness poll loop.  The bash loop itself
has no iteration bound: `none` means the loop was still running when the fuel
ran out.  `status` is the current `STATUS` value, `i` indexes the stream of
status responses. -/
def pollLoopFuel (fuel : Nat) (stream : Nat → StatusResp) (status : Str) (i : Nat) :
    Option PollEnd :=
  if isTerminalStatus status then some (.terminal status)
  else match fuel with
    | 0 => none
    | fuel + 1 =>
      let r := stream i
      if r.code ≠ 0 then some (.cmdFailed r.code)
      else
        let s := extract_status r.text
        if s = [] then some .emptyStatusExit
        else pollLoopFuel fuel stream s (i + 1)

/-! ## ARN extraction (`extract_agent_arn` in the deploy script) -/

def agentArnLabel : Str := strOf "Agent ARN:"
def endpointLabel : Str := strOf "Endpoint:"
def arnPre : Str := strOf "arn:aws:bedrock-agentcore:"
def barChar : Char := '│'

def isWs (c : Char) : Bool := c == ' ' || c == '\t' || c == '\n' || c == '\r'

/-- Render a list of selected line indices, inserting the `--` group
separator `grep -A` prints between non-adjacent groups. -/
def withSeps (lines : List Str) : List Nat → Option Nat → List Str
  | [], _ => []
  | i :: is, prev =>
    let line := lines.getD i []
    let rest := withSeps lines is (some i)
    match prev with
    | none => line :: rest
    | some p => if p + 1 < i then strOf "--" :: line :: rest else line :: rest

/-- Model of `grep -A 3 pat`: every matching line plus the three lines after it, with a
`--` separator between non-adjacent groups. -/
def grepA3 (pat : Str) (lines : List Str) : List Str :=
  let n := lines.length
  let incl := fun i => (List.range n).any
    (fun j => containsSub pat (lines.getD j []) && decide (j ≤ i) && decide (i ≤ j + 3))
  withSeps lines ((List.range n).filter incl) none

/-- Model of `sed -n` range printing: print the lines of each range opened by a line
matching `sp` and closed by a subsequent line matching `ep`. -/
def sedRange (sp ep : Str) : List Str → Bool → List Str
  | [], _ => []
  | l :: ls, true => l :: sedRange sp ep ls (!containsSub ep l)
  | l :: ls, false =>
    if containsSub sp l then l :: sedRange sp ep ls true else sedRange sp ep ls false

/-- Deletion `tr -d` of box-border and space characters on one line. -/
def trBarSpace (l : Str) : Str := l.filter (fun c => !(c == barChar || c == ' '))

/-- Method 1: lines after `Agent ARN:` (via `grep -A 3`), minus the label and
`Endpoint:` lines, `tr -d '│ '`; if the joined result is non-empty, newlines
and remaining whitespace are removed. -/
def arnMethod1 (resp : List Str) : Str :=
  let ls := ((grepA3 agentArnLabel resp).filter
      (fun l => !containsSub agentArnLabel l)).filter
      (fun l => !containsSub endpointLabel l)
  let ls2 := ls.map trBarSpace
  let joined := stripTrailNL (joinNL ls2)
  if joined = [] then [] else (ls2.flatten).filter (fun c => !isWs c)

/-- Method 2: `grep -o "arn:aws:bedrock-agentcore:[^[:space:]│]*" | head -1`:
the first inline occurrence, extended maximally over non-space non-`│`
characters. -/
def arnMethod2 : List Str → Str
  | [] => []
  | l :: ls =>
    match findSub arnPre l with
    | some i => arnPre ++ ((l.drop (i + arnPre.length)).takeWhile (fun c => !(isWs c || c == barChar)))
    | none => arnMethod2 ls

/-- Method 3: `sed -n '/Agent ARN:/,/Endpoint:/p' | grep "arn:aws:bedrock-agentcore" | tr -d '│ ' | head -1`. -/
def arnMethod3 (resp : List Str) : Str :=
  match (sedRange agentArnLabel endpointLabel resp false).filter
      (fun l => containsSub (strOf "arn:aws:bedrock-agentcore") l) with
  | [] => []
  | l :: _ => trBarSpace l

/-- The `extract_agent_arn` bash function: three strategies in fixed order,
first non-empty result wins. -/
def extract_agent_arn (resp : List Str) : Str :=
  let m1 := arnMethod1 resp
  if m1 ≠ [] then m1
  else
    let m2 := arnMethod2 resp
    if m2 ≠ [] then m2
    else arnMethod3 resp

/-- A well-formed primary-format status output embedding the ARN `t`: an
`Agent ARN:` header line, the ARN line, and the following `Endpoint:` line. -/
def primaryBlock (t : Str) : List Str :=
  [agentArnLabel, t, strOf "Endpoint: DEFAULT (READY)"]

/-! ## Parameter store model -/

/-- The SSM parameter store: key to value, `none` when the parameter is
absent. -/
def Store := Str → Option Str

def Store.put (s : Store) (k v : Str) : Store :=
  fun k' => if k' = k then some v else s k'

/-- Lookup `$(aws ssm get-parameter ... || echo "")`: empty string when absent. -/
def getOrEmpty (s : Store) (k : Str) : Str := (s k).getD []

def strNone : Str := strOf "None"

/-- A stored value the scripts treat as real (non-empty and not the literal
`None` that `--output text` prints for null). -/
def properVal (v : Str) : Prop := v ≠ [] ∧ v ≠ strNone

/-- Parameter keys `/{unit}/runtime/{field}`. -/
def mkKey (name sfx : Str) : Str := '/' :: (name ++ sfx)

def kAgentId (n : Str) : Str := mkKey n (strOf "/runtime/agent_id")
def kAgentArn (n : Str) : Str := mkKey n (strOf "/runtime/agent_arn")
def kAgentName (n : Str) : Str := mkKey n (strOf "/runtime/agent_name")
def kUserPool (n : Str) : Str := mkKey n (strOf "/runtime/user_pool_id")
def kClientId (n : Str) : Str := mkKey n (strOf "/runtime/client_id")
def kDiscovery (n : Str) : Str := mkKey n (strOf "/runtime/discovery_url")
def kEcrRepo (n : Str) : Str := mkKey n (strOf "/runtime/ecr_repo_name")
def kRoleName (n : Str) : Str := mkKey n (strOf "/runtime/agent_role_name")

/-! ## Deploy: Cognito setup section (user-pool reuse vs. creation) -/

/-- The canonical discovery URL
`https://cognito-idp.$REGION.amazonaws.com/$POOL_ID/.well-known/openid-configuration`. -/
def wellKnownSfx : Str := strOf "/.well-known/openid-configuration"

def canonicalUrl (region poolId : Str) : Str :=
  strOf "https://cognito-idp." ++ region ++ strOf ".amazonaws.com/" ++ poolId ++ wellKnownSfx

/-- AWS control-plane calls issued by the Cognito section of the deploy
script.  `createUser`/`setPassword` are the creation of the fixed test
principal. -/
inductive CogAct
  | createPool
  | createClient
  | createUser
  | setPassword
  | listClients
  | putParam (k v : Str)
  deriving DecidableEq

/-- Outcomes of the external identity-provider calls. -/
structure CogEnv where
  region : Str
  newPoolId : Str    -- pool id a `create-user-pool` call would return
  newClientId : Str  -- client id a `create-user-pool-client` call would return
  liveClientId : Str -- `list-user-pool-clients` first client id

structure CogResult where
  store : Store
  poolId : Str
  clientId : Str
  discoveryUrl : Str
  trace : List CogAct

/-- The Cognito-setup section of the deploy script (the `EXISTING_POOL_ID`
reuse/create branch): reuse the recorded pool id when present and not
`None`, re-deriving client id and discovery URL from the live user pool only
when one of those two records is missing; otherwise create a pool, a
client and the test principal and persist all three records. -/
def cognitoSetup (env : CogEnv) (name : Str) (s : Store) : CogResult :=
  let existing := getOrEmpty s (kUserPool name)
  if existing ≠ [] ∧ existing ≠ strNone then
    let clientId := getOrEmpty s (kClientId name)
    let disc := getOrEmpty s (kDiscovery name)
    if clientId = [] ∨ disc = [] then
      let c := env.liveClientId
      let d := canonicalUrl env.region existing
      { store := (s.put (kClientId name) c).put (kDiscovery name) d,
        poolId := existing, clientId := c, discoveryUrl := d,
        trace := [.listClients, .putParam (kClientId name) c, .putParam (kDiscovery name) d] }
    else
      { store := s, poolId := existing, clientId := clientId, discoveryUrl := disc,
        trace := [] }
  else
    let p := env.newPoolId
    let c := env.newClientId
    let d := canonicalUrl env.region p
    { store := (((s.put (kUserPool name) p).put (kClientId name) c).put (kDiscovery name) d),
      poolId := p, clientId := c, discoveryUrl := d,
      trace := [.createPool, .putParam (kUserPool name) p, .createClient,
                .createUser, .setPassword,
                .putParam (kClientId name) c, .putParam (kDiscovery name) d] }

/-- Number of pool/client/test-principal creation calls in a trace. -/
def countCreations (tr : List CogAct) : Nat :=
  tr.countP (fun a => a = .createPool || a = .createClient || a = .createUser)

/-! ## Deploy: discovery URL correction, validation and configure step -/

def lbrace : Char := Char.ofNat 123

inductive CfgAct
  | putDiscovery (v : Str)
  | configure (allowedClient discoveryUrl : Str)
  deriving DecidableEq

/-- Suffix test `endsWith sfx s`: `s` ends with `sfx` (bash `[[ "$s" == *"sfx" ]]`). -/
def endsWith (sfx s : Str) : Bool := isPre sfx.reverse s.reverse

structure CfgResult where
  trace : List CfgAct
  outcome : Except Nat (Store × Str)  -- error: exit code; ok: store and the URL used

/-- The deploy script's discovery-URL handling before `agentcore configure`:
if the URL contains `{` it is rebuilt from region and pool id and persisted;
then any URL not ending in `/.well-known/openid-configuration` is a fatal
`exit 1`; otherwise the configure step runs with the validated URL in the
authorizer config. -/
def discoveryFixConfigure (region poolId clientId url name : Str) (s : Store) : CfgResult :=
  let fixed := containsSub [lbrace] url
  let url' := if fixed then canonicalUrl region poolId else url
  let s' := if fixed then s.put (kDiscovery name) url' else s
  let tr : List CfgAct := if fixed then [.putDiscovery url'] else []
  if !endsWith wellKnownSfx url' then
    { trace := tr, outcome := .error 1 }
  else
    { trace := tr ++ [.configure clientId url'], outcome := .ok (s', url') }

/-! ## Destroy script -/

/-- Mutating AWS calls issued by the destroy script. -/
inductive DAct
  | deleteRuntime (id : Str)
  | batchDelete (repo : Str)
  | deleteUserPool (id : Str)
  | deleteParam (k : Str)
  deriving DecidableEq

/-- Warnings the destroy script prints (skip/absence/timeout notices). -/
inductive DWarn
  | runtimeSkipped
  | runtimeDeleteFailed
  | runtimeWaitTimeout
  | ecrSkipped
  | repoAbsent
  | noImages
  | poolSkipped
  | poolAbsent
  | poolDeleteFailed
  | delParamFailed (k : Str)
  deriving DecidableEq

/-- How a destroy run ends.  The aborted cases are `set -e` exits: a bare
failing command (the `list-images` substitution, the `batch-delete-image`
pipeline, or a `get_parameter` call returning 1 on an empty/`None` value)
terminates the script immediately with the command's nonzero status,
before the summary and the error-counter exit. -/
inductive DStop
  | completed (errors deleted exitCode : Nat)
  | abortedLookup (k : Str)
  | abortedListImages
  | abortedBatchDelete
  deriving DecidableEq

structure DRes where
  trace : List DAct
  warns : List DWarn
  stop : DStop

/-- Outcomes of the external calls the destroy script makes. -/
structure DestroyEnv where
  params : Store
  deleteRuntimeOk : Bool
  runtimeGone : Nat → Bool  -- existence probe at wait iteration i (true = get fails, runtime gone)
  repoExists : Bool
  listImagesOk : Bool
  imagesJson : Str          -- output of `list-images` (the script compares it to "[]")
  batchDeleteOk : Bool
  poolExists : Bool
  deletePoolOk : Bool
  delParamOk : Str → Bool

/-- Agent-name resolution: prefer the `agent_name` record over the CLI
argument. -/
def resolveName (s : Store) (cli : Str) : Str :=
  let v := getOrEmpty s (kAgentName cli)
  if v ≠ [] ∧ v ≠ strNone then v else cli

/-- A guarded parameter lookup (`parameter_exists` + `get_parameter`): absent
keys leave the variable empty; a present key whose value is empty or `None`
makes `get_parameter` return 1, which `set -e` turns into a script abort. -/
def lookupVal (s : Store) (k : Str) : Except Str Str :=
  match s k with
  | none => .ok []
  | some v => if v = [] ∨ v = strNone then .error k else .ok v

/-- The deletion wait loop: up to `fuel` (30) iterations, checking at
iteration `i` whether the runtime is gone. -/
def waitDone (g : Nat → Bool) (i : Nat) : Nat → Bool
  | 0 => false
  | fuel + 1 => if g i then true else waitDone g (i + 1) fuel

def MAX_WAIT : Nat := 30

/-- AgentCore-runtime deletion step: returns attempted calls, warnings and
the error-counter contribution.  A failed delete increments the counter; a
wait-loop timeout only warns. -/
def runtimePhase (env : DestroyEnv) (agentId : Str) : List DAct × List DWarn × Nat :=
  if agentId = [] then ([], [.runtimeSkipped], 0)
  else if env.deleteRuntimeOk then
    ([.deleteRuntime agentId],
     (if waitDone env.runtimeGone 1 MAX_WAIT then [] else [.runtimeWaitTimeout]), 0)
  else ([.deleteRuntime agentId], [.runtimeDeleteFailed], 1)

/-- ECR image-cleanup step.  The `list-images` command substitution and the
`batch-delete-image` pipeline are bare commands under `set -e`: their failure
aborts the whole script.  No path of this step touches the error counter. -/
def ecrPhase (env : DestroyEnv) (repo : Str) : List DAct × List DWarn × Option DStop :=
  if repo = [] then ([], [.ecrSkipped], none)
  else if env.repoExists then
    if env.listImagesOk then
      if env.imagesJson ≠ strOf "[]" ∧ env.imagesJson ≠ [] then
        if env.batchDeleteOk then ([.batchDelete repo], [], none)
        else ([.batchDelete repo], [], some .abortedBatchDelete)
      else ([], [.noImages], none)
    else ([], [], some .abortedListImages)
  else ([], [.repoAbsent], none)

/-- Cognito user-pool deletion step. -/
def poolPhase (env : DestroyEnv) (poolId : Str) : List DAct × List DWarn × Nat :=
  if poolId = [] then ([], [.poolSkipped], 0)
  else if env.poolExists then
    if env.deletePoolOk then ([.deleteUserPool poolId], [], 0)
    else ([.deleteUserPool poolId], [.poolDeleteFailed], 1)
  else ([], [.poolAbsent], 0)

/-- The `PARAMETERS` array of the destroy script: the five keys it deletes. -/
def destroyParamKeys (n : Str) : List Str :=
  [kAgentId n, kAgentArn n, kUserPool n, kClientId n, kDiscovery n]

structure SsmRes where
  acts : List DAct
  deleted : Nat
  errors : Nat
  warns : List DWarn

/-- The SSM cleanup loop: delete each existing parameter, count successes,
count failures in the error counter; absent parameters are skipped. -/
def ssmPhase (env : DestroyEnv) : List Str → SsmRes
  | [] => ⟨[], 0, 0, []⟩
  | k :: ks =>
    let r := ssmPhase env ks
    if (env.params k).isSome then
      if env.delParamOk k then ⟨.deleteParam k :: r.acts, r.deleted + 1, r.errors, r.warns⟩
      else ⟨.deleteParam k :: r.acts, r.deleted, r.errors + 1, .delParamFailed k :: r.warns⟩
    else r

/-- A resource record that is either absent or holds a usable value (the
configurations under which a lookup does not trip the `set -e` abort). -/
def okRec (s : Store) (k : Str) : Prop :=
  s k = none ∨ ∃ v, s k = some v ∧ properVal v

/-- The whole destroy run: resolve the unit name, read the four resource
records (each lookup tolerating absence, in the script's order: the first
improper value aborts), then runtime, ECR, Cognito and SSM cleanup, and
finally exit 0 when the error counter is zero, else exit 1. -/
def destroyRun (env : DestroyEnv) (cliName : Str) : DRes :=
  let name := resolveName env.params cliName
  match lookupVal env.params (kAgentId name), lookupVal env.params (kUserPool name),
        lookupVal env.params (kEcrRepo name), lookupVal env.params (kRoleName name) with
  | .error k, _, _, _ => ⟨[], [], .abortedLookup k⟩
  | .ok _, .error k, _, _ => ⟨[], [], .abortedLookup k⟩
  | .ok _, .ok _, .error k, _ => ⟨[], [], .abortedLookup k⟩
  | .ok _, .ok _, .ok _, .error k => ⟨[], [], .abortedLookup k⟩
  | .ok agentId, .ok poolId, .ok repo, .ok _ =>
    let rres := runtimePhase env agentId
    let eres := ecrPhase env repo
    match eres.2.2 with
    | some st => ⟨rres.1 ++ eres.1, rres.2.1 ++ eres.2.1, st⟩
    | none =>
      let pres := poolPhase env poolId
      let sres := ssmPhase env (destroyParamKeys name)
      let errors := rres.2.2 + pres.2.2 + sres.errors
      ⟨rres.1 ++ eres.1 ++ pres.1 ++ sres.acts,
       rres.2.1 ++ eres.2.1 ++ pres.2.1 ++ sres.warns,
       .completed errors sres.deleted (if errors = 0 then 0 else 1)⟩

/-! ## Concrete fixtures used by witnesses and counterexamples -/

/-- A status response whose text maps to `CREATING` and never becomes
terminal. -/
def deployingResp : StatusResp :=
  ⟨[strOf "Status: Deploying - Agent created, endpoint starting"], 0⟩

/-- A status text matching none of the recognized patterns. -/
def unrecText : List Str := [strOf "Agent provisioning in progress"]

def sampleArn : Str :=
  strOf "arn:aws:bedrock-agentcore:us-east-1:123456789012:runtime/myagent-AbC123"

/-- Status output lacking the `Agent ARN:` block but containing the ARN
inline. -/
def inlineArnResp : List Str :=
  [strOf "Launching agent",
   strOf "Found arn:aws:bedrock-agentcore:us-east-1:123456789012:runtime/myagent-AbC123 in output"]

def uName : Str := strOf "hotel_booking_agent"

/-- A parameter store holding all eight runtime records for `uName`. -/
def fullStore : Store := fun k =>
  if k = kAgentName uName then some uName
  else if k = kAgentId uName then some (strOf "myagent-AbC123")
  else if k = kAgentArn uName then some sampleArn
  else if k = kUserPool uName then some (strOf "us-east-1_POOL1")
  else if k = kClientId uName then some (strOf "client123")
  else if k = kDiscovery uName then
    some (canonicalUrl (strOf "us-east-1") (strOf "us-east-1_POOL1"))
  else if k = kEcrRepo uName then some (strOf "bedrock-agentcore-hotel_booking_agent")
  else if k = kRoleName uName then some (strOf "us-east-1-agentcore-hotel_booking_agent-role")
  else none

/-- Destroy environment in which every external call succeeds and the ECR
repository holds images. -/
def benignEnv : DestroyEnv :=
  { params := fullStore, deleteRuntimeOk := true, runtimeGone := fun _ => true,
    repoExists := true, listImagesOk := true, imagesJson := strOf "[image1]",
    batchDeleteOk := true, poolExists := true, deletePoolOk := true,
    delParamOk := fun _ => true }

/-- Same environment except that the `batch-delete-image` pipeline fails
(nonzero exit status under `set -e`). -/
def batchFailEnv : DestroyEnv := { benignEnv with batchDeleteOk := false }

/-- Same environment except that the Cognito user-pool deletion fails. -/
def poolFailEnv : DestroyEnv := { benignEnv with deletePoolOk := false }

/-- Same environment except that the runtime never reads as deleted during
the bounded wait. -/
def slowDeleteEnv : DestroyEnv := { benignEnv with runtimeGone := fun _ => false }

/-- A status text that matches both the specific readiness phrase and the
generic failure pattern. -/
def readyAndFailText : List Str :=
  [strOf "Ready - Agent deployed and endpoint available (previous attempt failed)"]

/-- A discovery-URL value polluted with embedded JSON (contains `{`). -/
def badUrl : Str :=
  strOf "\x7b\x22UserPool\x22: \x7b\x22Id\x22: \x22us-east-1_POOL1\x22\x7d\x7d"

def regionFix : Str := strOf "us-east-1"
def poolFix : Str := strOf "us-east-1_POOL1"
def clientFix : Str := strOf "client123"

/-- A parameter store holding only some of the records: the compute-runtime
id, pool id and role name are recorded; the registry name (and the agent
name, client id, discovery URL and ARN) are absent. -/
def subsetStore : Store := fun k =>
  if k = kAgentId uName then some (strOf "myagent-AbC123")
  else if k = kUserPool uName then some (strOf "us-east-1_POOL1")
  else if k = kRoleName uName then some (strOf "us-east-1-agentcore-hotel_booking_agent-role")
  else none

/-- Destroy environment over the incomplete store, all external calls
succeeding. -/
def subsetEnv : DestroyEnv := { benignEnv with params := subsetStore }

/-! ## Helper lemmas -/

lemma mkKey_sfx_inj {n a b : Str} (h : mkKey n a = mkKey n b) : a = b := by
  simp only [mkKey, List.cons.injEq, true_and] at h
  exact List.append_cancel_left h

lemma pollLoop_stuck (stream : Nat → StatusResp)
    (h : ∀ j, (stream j).code = 0 ∧
      isTerminalStatus (extract_status (stream j).text) = false ∧
      extract_status (stream j).text ≠ []) :
    ∀ (fuel : Nat) (status : Str) (i : Nat), isTerminalStatus status = false →
      pollLoopFuel fuel stream status i = none := by
  intro fuel
  induction fuel with
  | zero => intro s i hs; simp [pollLoopFuel, hs]
  | succ n ih =>
    intro s i hs
    have h1 := (h i).1
    have h2 := (h i).2.1
    have h3 := (h i).2.2
    simp only [pollLoopFuel, hs, Bool.false_eq_true, if_false]
    simp only [h1, ne_eq, not_true_eq_false, if_false]
    rw [if_neg h3]
    exact ih _ _ h2

lemma waitDone_false (g : Nat → Bool) (h : ∀ j, g j = false) :
    ∀ (fuel i : Nat), waitDone g i fuel = false := by
  intro fuel
  induction fuel with
  | zero => intro i; rfl
  | succ n ih => intro i; simp only [waitDone, h i, Bool.false_eq_true, if_false]; exact ih (i + 1)

lemma ssm_deleted (env : DestroyEnv) :
    ∀ ks : List Str, (ssmPhase env ks).deleted =
      ks.countP (fun k => (env.params k).isSome && env.delParamOk k) := by
  intro ks
  induction ks with
  | nil => rfl
  | cons k ks ih =>
    simp only [ssmPhase, List.countP_cons]
    cases hk : (env.params k).isSome <;> cases hd : env.delParamOk k <;>
      simp [hk, hd, ih]

lemma ssm_errors (env : DestroyEnv) :
    ∀ ks : List Str, (ssmPhase env ks).errors =
      ks.countP (fun k => (env.params k).isSome && !env.delParamOk k) := by
  intro ks
  induction ks with
  | nil => rfl
  | cons k ks ih =>
    simp only [ssmPhase, List.countP_cons]
    cases hk : (env.params k).isSome <;> cases hd : env.delParamOk k <;>
      simp [hk, hd, ih]

lemma ssm_acts_mem (env : DestroyEnv) :
    ∀ (ks : List Str) (k : Str),
      (DAct.deleteParam k ∈ (ssmPhase env ks).acts ↔ k ∈ ks ∧ (env.params k).isSome) := by
  intro ks
  induction ks with
  | nil => intro k; simp [ssmPhase]
  | cons k' ks ih =>
    intro k
    simp only [ssmPhase]
    by_cases hk : (env.params k').isSome = true
    · rw [if_pos hk]
      by_cases hd : env.delParamOk k' = true
      · rw [if_pos hd]
        constructor
        · intro hm
          rcases List.mem_cons.mp hm with h | h
          · injection h with hh; subst hh; exact ⟨List.mem_cons_self _ _, hk⟩
          · rcases (ih k).mp h with ⟨h1, h2⟩
            exact ⟨List.mem_cons_of_mem _ h1, h2⟩
        · rintro ⟨h1, h2⟩
          rcases List.mem_cons.mp h1 with h1 | h1
          · subst h1; exact List.mem_cons_self _ _
          · exact List.mem_cons_of_mem _ ((ih k).mpr ⟨h1, h2⟩)
      · rw [if_neg hd]
        constructor
        · intro hm
          rcases List.mem_cons.mp hm with h | h
          · injection h with hh; subst hh; exact ⟨List.mem_cons_self _ _, hk⟩
          · rcases (ih k).mp h with ⟨h1, h2⟩
            exact ⟨List.mem_cons_of_mem _ h1, h2⟩
        · rintro ⟨h1, h2⟩
          rcases List.mem_cons.mp h1 with h1 | h1
          · subst h1; exact List.mem_cons_self _ _
          · exact List.mem_cons_of_mem _ ((ih k).mpr ⟨h1, h2⟩)
    · rw [if_neg hk]
      rw [ih k]
      constructor
      · rintro ⟨h1, h2⟩
        exact ⟨List.mem_cons_of_mem _ h1, h2⟩
      · rintro ⟨h1, h2⟩
        rcases List.mem_cons.mp h1 with h1 | h1
        · subst h1; exact absurd h2 hk
        · exact ⟨h1, h2⟩

lemma ssm_acts_only (env : DestroyEnv) :
    ∀ (ks : List Str) (a : DAct), a ∈ (ssmPhase env ks).acts → ∃ k, a = .deleteParam k := by
  intro ks
  induction ks with
  | nil => intro a ha; simp [ssmPhase] at ha
  | cons k ks ih =>
    intro a ha
    simp only [ssmPhase] at ha
    by_cases hk : (env.params k).isSome = true
    · rw [if_pos hk] at ha
      by_cases hd : env.delParamOk k = true
      · rw [if_pos hd] at ha
        rcases List.mem_cons.mp ha with h | h
        · exact ⟨k, h⟩
        · exact ih a h
      · rw [if_neg hd] at ha
        rcases List.mem_cons.mp ha with h | h
        · exact ⟨k, h⟩
        · exact ih a h
    · rw [if_neg hk] at ha
      exact ih a ha

lemma isPre_append (p t : Str) : isPre p (p ++ t) = true := by
  induction p with
  | nil => rfl
  | cons c cs ih => simp [isPre, ih]

lemma endsWith_append (sfx pre : Str) : endsWith sfx (pre ++ sfx) = true := by
  simp only [endsWith, List.reverse_append]
  exact isPre_append _ _

lemma canonicalUrl_endsWith (r p : Str) : endsWith wellKnownSfx (canonicalUrl r p) = true := by
  have h : canonicalUrl r p =
      (strOf "https://cognito-idp." ++ r ++ strOf ".amazonaws.com/" ++ p) ++ wellKnownSfx := by
    simp [canonicalUrl, List.append_assoc]
  rw [h]
  exact endsWith_append _ _

lemma canonicalUrl_ne_nil (r p : Str) : canonicalUrl r p ≠ [] := by
  unfold canonicalUrl
  cases hh : strOf "https://cognito-idp." with
  | nil => exact absurd hh (by decide)
  | cons c cs => simp

lemma grepA3_nil (pat : Str) (lines : List Str)
    (h : ∀ l ∈ lines, containsSub pat l = false) : grepA3 pat lines = [] := by
  have hidx : ((List.range lines.length).filter fun i => (List.range lines.length).any
      (fun j => containsSub pat (lines.getD j []) && decide (j ≤ i) && decide (i ≤ j + 3))) = [] := by
    rw [List.filter_eq_nil_iff]
    intro i _ hany
    rw [List.any_eq_true] at hany
    rcases hany with ⟨j, hj, hcond⟩
    have hjl : j < lines.length := List.mem_range.mp hj
    rw [List.getD_eq_getElem _ _ hjl] at hcond
    rw [h _ (List.getElem_mem hjl)] at hcond
    simp at hcond
  simp only [grepA3, hidx]
  rfl

lemma put_same (s : Store) (k v : Str) : (s.put k v) k = some v := by
  simp [Store.put]

lemma put_other (s : Store) (k v k' : Str) (h : k' ≠ k) : (s.put k v) k' = s k' := by
  simp [Store.put, h]

lemma kUserPool_ne_kClientId (n : Str) : kUserPool n ≠ kClientId n := by
  intro h
  exact absurd (mkKey_sfx_inj h) (by decide)

lemma kUserPool_ne_kDiscovery (n : Str) : kUserPool n ≠ kDiscovery n := by
  intro h
  exact absurd (mkKey_sfx_inj h) (by decide)

lemma kClientId_ne_kDiscovery (n : Str) : kClientId n ≠ kDiscovery n := by
  intro h
  exact absurd (mkKey_sfx_inj h) (by decide)

lemma lookupVal_ok (s : Store) (k : Str) (h : okRec s k) :
    lookupVal s k = .ok ((s k).getD []) := by
  rcases h with h | ⟨v, hv, hp⟩
  · simp [lookupVal, h]
  · simp [lookupVal, hv, hp.1, hp.2]

lemma runtimePhase_acts_shape (env : DestroyEnv) (a : Str) :
    (runtimePhase env a).1 = [] ∨ (runtimePhase env a).1 = [.deleteRuntime a] := by
  unfold runtimePhase
  split_ifs <;> simp

lemma runtimePhase_mem (env : DestroyEnv) (a : Str) (h : a ≠ []) :
    DAct.deleteRuntime a ∈ (runtimePhase env a).1 := by
  unfold runtimePhase
  split_ifs <;> simp_all

lemma runtimePhase_noerr (env : DestroyEnv) (a : Str) (h : env.deleteRuntimeOk = true) :
    (runtimePhase env a).2.2 = 0 := by
  unfold runtimePhase
  split_ifs <;> simp_all

lemma ecrPhase_acts_shape (env : DestroyEnv) (r : Str) :
    (ecrPhase env r).1 = [] ∨ (ecrPhase env r).1 = [.batchDelete r] := by
  unfold ecrPhase
  split_ifs <;> simp

lemma ecrPhase_safe (env : DestroyEnv) (r : Str)
    (hli : env.listImagesOk = true) (hbd : env.batchDeleteOk = true) :
    (ecrPhase env r).2.2 = none := by
  unfold ecrPhase
  split_ifs <;> simp_all

lemma ecrPhase_mem (env : DestroyEnv) (r : Str) (h : r ≠ [])
    (hre : env.repoExists = true) (hli : env.listImagesOk = true)
    (him : env.imagesJson ≠ strOf "[]" ∧ env.imagesJson ≠ [])
    (hbd : env.batchDeleteOk = true) :
    DAct.batchDelete r ∈ (ecrPhase env r).1 := by
  simp [ecrPhase, h, hre, hli, him.1, him.2, hbd]

lemma poolPhase_acts_shape (env : DestroyEnv) (u : Str) :
    (poolPhase env u).1 = [] ∨ (poolPhase env u).1 = [.deleteUserPool u] := by
  unfold poolPhase
  split_ifs <;> simp

lemma poolPhase_mem (env : DestroyEnv) (u : Str) (h : u ≠ [])
    (hpe : env.poolExists = true) :
    DAct.deleteUserPool u ∈ (poolPhase env u).1 := by
  unfold poolPhase
  split_ifs <;> simp_all

lemma poolPhase_noerr (env : DestroyEnv) (u : Str) (h : env.deletePoolOk = true) :
    (poolPhase env u).2.2 = 0 := by
  unfold poolPhase
  split_ifs <;> simp_all

/-- Under tolerable lookups and a non-aborting ECR step, the destroy run is
the composition of its four cleanup phases followed by the error-counter
exit. -/
lemma destroyRun_phases (env : DestroyEnv) (cli : Str)
    (hA : okRec env.params (kAgentId (resolveName env.params cli)))
    (hU : okRec env.params (kUserPool (resolveName env.params cli)))
    (hE : okRec env.params (kEcrRepo (resolveName env.params cli)))
    (hR : okRec env.params (kRoleName (resolveName env.params cli)))
    (hsafe : (ecrPhase env ((env.params (kEcrRepo (resolveName env.params cli))).getD [])).2.2
      = none) :
    destroyRun env cli =
      ⟨(runtimePhase env ((env.params (kAgentId (resolveName env.params cli))).getD [])).1 ++
         (ecrPhase env ((env.params (kEcrRepo (resolveName env.params cli))).getD [])).1 ++
         (poolPhase env ((env.params (kUserPool (resolveName env.params cli))).getD [])).1 ++
         (ssmPhase env (destroyParamKeys (resolveName env.params cli))).acts,
       (runtimePhase env ((env.params (kAgentId (resolveName env.params cli))).getD [])).2.1 ++
         (ecrPhase env ((env.params (kEcrRepo (resolveName env.params cli))).getD [])).2.1 ++
         (poolPhase env ((env.params (kUserPool (resolveName env.params cli))).getD [])).2.1 ++
         (ssmPhase env (destroyParamKeys (resolveName env.params cli))).warns,
       .completed
         ((runtimePhase env ((env.params (kAgentId (resolveName env.params cli))).getD [])).2.2 +
          (poolPhase env ((env.params (kUserPool (resolveName env.params cli))).getD [])).2.2 +
          (ssmPhase env (destroyParamKeys (resolveName env.params cli))).errors)
         (ssmPhase env (destroyParamKeys (resolveName env.params cli))).deleted
         (if (runtimePhase env ((env.params (kAgentId (resolveName env.params cli))).getD [])).2.2 +
             (poolPhase env ((env.params (kUserPool (resolveName env.params cli))).getD [])).2.2 +
             (ssmPhase env (destroyParamKeys (resolveName env.params cli))).errors = 0
          then 0 else 1)⟩ := by
  simp only [destroyRun, lookupVal_ok _ _ hA, lookupVal_ok _ _ hU, lookupVal_ok _ _ hE,
    lookupVal_ok _ _ hR, hsafe]

/-! ## Claim C2: readiness-poll bound -/

/-- C2 counterexample: the Deploy readiness poll loop does NOT stop after a
fixed maximum iteration count.  On a status source that forever reports the
in-progress text, the loop is still running after 1000 iterations — far past
`MAX_WAIT = 30`, the only fixed polling bound anywhere in the scripts (it
belongs to the destroy script's deletion wait, not to this loop). -/
theorem c2_poll_unbounded_counterexample :
    pollLoopFuel 1000 (fun _ => deployingResp) strCREATING 0 = none := by
  have hnt : isTerminalStatus (extract_status deployingResp.text) = false := by decide
  have hne : extract_status deployingResp.text ≠ [] := by decide
  exact pollLoop_stuck _ (fun _ => ⟨rfl, hnt, hne⟩) 1000 _ 0 (by decide)

/-- C2 (amended): the Deploy readiness poll loop has no iteration bound at
all: for every status source whose responses always succeed and always map
to a non-empty, non-terminal status, the loop is still running after any
number of iterations (it exits only on a terminal status, a failed status
command, or an empty extracted status — the last two via a hard exit, not a
warning; the fixed 30-iteration bound exists only in the destroy script's
deletion wait loop). -/
theorem c2_poll_loop_never_stops (stream : Nat → StatusResp)
    (h : ∀ j, (stream j).code = 0 ∧
      isTerminalStatus (extract_status (stream j).text) = false ∧
      extract_status (stream j).text ≠ []) :
    ∀ (fuel : Nat) (status : Str) (i : Nat), isTerminalStatus status = false →
      pollLoopFuel fuel stream status i = none :=
  pollLoop_stuck stream h

/-- Witness for C2 (amended) at a concrete stream and fuel. -/
theorem c2_poll_loop_never_stops_witness :
    pollLoopFuel 3 (fun _ => deployingResp) strCREATING 0 = none := by
  have hnt : isTerminalStatus (extract_status deployingResp.text) = false := by decide
  have hne : extract_status deployingResp.text ≠ [] := by decide
  exact c2_poll_loop_never_stops (fun _ => deployingResp)
    (fun _ => ⟨rfl, hnt, hne⟩) 3 strCREATING 0 (by decide)

/-! ## Claim C5: unrecognized status text -/

/-- C5 counterexample: a status text matching none of the recognized
patterns is mapped to the empty status — not to `CREATING` — and the poll
loop thereupon exits (hard `exit 1`) instead of continuing to poll. -/
theorem c5_unrecognized_aborts_counterexample :
    extract_status unrecText = [] ∧
    extract_status unrecText ≠ strCREATING ∧
    pollLoopFuel 5 (fun _ => ⟨unrecText, 0⟩) strCREATING 0 = some .emptyStatusExit := by
  refine ⟨by decide, by decide, by decide⟩

/-- C5 (amended): for every status-response text matching none of the
recognized readiness, in-progress, legacy-`STATUS:` or failure patterns, the
status mapping yields the empty string, and the readiness poll loop aborts
on the empty status rather than continuing to poll. -/
theorem c5_unrecognized_empty_and_abort (r : List Str)
    (h1 : grepHas readyPhrase r = false)
    (h2 : grepHas deployingPhrase r = false)
    (h3 : r.any lineEndpointReady = false)
    (h4 : legacyStatus r = [])
    (h5 : grepAnyCI failPats r = false)
    (h6 : grepAnyCI progressPats r = false) :
    extract_status r = [] ∧
    ∀ (fuel i : Nat) (status : Str), isTerminalStatus status = false →
      pollLoopFuel (fuel + 1) (fun _ => ⟨r, 0⟩) status i = some .emptyStatusExit := by
  have hs : extract_status r = [] := by
    simp [extract_status, h1, h2, h3, h4, h5, h6]
  refine ⟨hs, ?_⟩
  intro fuel i status hterm
  simp only [pollLoopFuel, hterm, Bool.false_eq_true, if_false]
  simp [hs]

/-- Witness for C5 (amended) at a concrete unrecognized text. -/
theorem c5_unrecognized_empty_and_abort_witness :
    extract_status unrecText = [] ∧
    pollLoopFuel 6 (fun _ => ⟨unrecText, 0⟩) strCREATING 0 = some .emptyStatusExit := by
  have h := c5_unrecognized_empty_and_abort unrecText (by decide) (by decide) (by decide)
    (by decide) (by decide) (by decide)
  exact ⟨h.1, h.2 5 0 strCREATING (by decide)⟩

/-! ## Claim C4: status-mapping determinism and rule order -/

/-- C4: `extract_status` is a pure function equal to the first-match
evaluation of its ordered rule list (specific phrases before generic failure
patterns), so repeated applications to the same text yield the same state;
in particular the specific readiness and deploying phrases win over the
generic `failed`/`error`/`not found` rule. -/
theorem extract_status_fixed_order (r : List Str) :
    extract_status r = extract_status r ∧
    extract_status r = (firstRule statusRules r).getD [] ∧
    (grepHas readyPhrase r = true → extract_status r = strREADY) ∧
    (grepHas readyPhrase r = false → grepHas deployingPhrase r = true →
      extract_status r = strCREATING) := by
  refine ⟨rfl, ?_, ?_, ?_⟩
  · simp only [extract_status, statusRules, firstRule]
    split_ifs <;> simp_all
  · intro h
    simp [extract_status, h]
  · intro h1 h2
    simp [extract_status, h1, h2]

/-- Witness for C4 at a text containing both the readiness phrase and the
generic failure word. -/
theorem extract_status_fixed_order_witness :
    grepHas readyPhrase readyAndFailText = true ∧
    grepAnyCI failPats readyAndFailText = true ∧
    extract_status readyAndFailText = strREADY :=
  ⟨by decide, by decide, (extract_status_fixed_order readyAndFailText).2.2.1 (by decide)⟩

/-! ## Claim C8: discovery-URL self-correction -/

/-- C8: if the discovery URL contains embedded JSON (a `{`), the deploy
script rebuilds the canonical URL from region and pool id, persists it, and
uses it; every URL that reaches the configure step ends with
`/.well-known/openid-configuration`; and a URL that (after the single
correction) does not end with that suffix is a fatal exit 1 raised before
the configure step runs. -/
theorem discovery_url_self_correction (region poolId clientId url name : Str) (s : Store) :
    (containsSub [lbrace] url = true →
      (discoveryFixConfigure region poolId clientId url name s).outcome =
        .ok (s.put (kDiscovery name) (canonicalUrl region poolId), canonicalUrl region poolId) ∧
      CfgAct.putDiscovery (canonicalUrl region poolId) ∈
        (discoveryFixConfigure region poolId clientId url name s).trace ∧
      CfgAct.configure clientId (canonicalUrl region poolId) ∈
        (discoveryFixConfigure region poolId clientId url name s).trace) ∧
    (∀ s' u, (discoveryFixConfigure region poolId clientId url name s).outcome = .ok (s', u) →
      endsWith wellKnownSfx u = true) ∧
    (containsSub [lbrace] url = false → endsWith wellKnownSfx url = false →
      (discoveryFixConfigure region poolId clientId url name s).outcome = .error 1 ∧
      ∀ c u, CfgAct.configure c u ∉ (discoveryFixConfigure region poolId clientId url name s).trace) := by
  have hce := canonicalUrl_endsWith region poolId
  cases hb : containsSub [lbrace] url with
  | true =>
    refine ⟨fun _ => ?_, ?_, fun hfalse _ => ?_⟩
    · simp [discoveryFixConfigure, hb, hce]
    · intro s' u hu
      simp [discoveryFixConfigure, hb, hce] at hu
      rcases hu with ⟨h1, h2⟩
      subst h2
      exact hce
    · simp [hb] at hfalse
  | false =>
    cases he : endsWith wellKnownSfx url with
    | true =>
      refine ⟨fun htrue => ?_, ?_, fun _ hfalse => ?_⟩
      · simp [hb] at htrue
      · intro s' u hu
        simp [discoveryFixConfigure, hb, he] at hu
        rcases hu with ⟨h1, h2⟩
        subst h2
        exact he
      · simp [he] at hfalse
    | false =>
      refine ⟨fun htrue => ?_, ?_, fun _ _ => ⟨?_, ?_⟩⟩
      · simp [hb] at htrue
      · intro s' u hu
        simp [discoveryFixConfigure, hb, he] at hu
      · simp [discoveryFixConfigure, hb, he]
      · intro c u
        simp [discoveryFixConfigure, hb, he]

/-- Witness for C8 at a JSON-polluted URL value. -/
theorem discovery_url_self_correction_witness :
    containsSub [lbrace] badUrl = true ∧
    (discoveryFixConfigure regionFix poolFix clientFix badUrl uName fullStore).outcome =
      .ok (fullStore.put (kDiscovery uName) (canonicalUrl regionFix poolFix),
           canonicalUrl regionFix poolFix) :=
  ⟨by decide,
   ((discovery_url_self_correction regionFix poolFix clientFix badUrl uName fullStore).1
     (by decide)).1⟩

/-! ## Claim C1: idempotent deploy (Cognito section) -/

/-- C1: starting from a store with no recorded user-pool id, the first
deploy's Cognito section creates exactly one pool, one client and one test
principal and records pool id, client id and discovery URL; a second deploy
on the resulting records creates nothing, issues no call at all (not even
the live re-derivation), and returns the same pool id, client id, discovery
URL and store.  Moreover, whenever a proper pool id is recorded, the section
never creates a pool, client or test principal. -/
theorem deploy_cognito_idempotent (env1 env2 : CogEnv) (name : Str) (s : Store)
    (h0 : s (kUserPool name) = none)
    (hp : properVal env1.newPoolId) (hc : env1.newClientId ≠ []) :
    countCreations (cognitoSetup env1 name s).trace = 3 ∧
    (cognitoSetup env1 name s).trace.count .createPool = 1 ∧
    (cognitoSetup env1 name s).trace.count .createClient = 1 ∧
    (cognitoSetup env1 name s).trace.count .createUser = 1 ∧
    ((cognitoSetup env2 name (cognitoSetup env1 name s).store).trace = [] ∧
     (cognitoSetup env2 name (cognitoSetup env1 name s).store).store =
       (cognitoSetup env1 name s).store ∧
     (cognitoSetup env2 name (cognitoSetup env1 name s).store).poolId =
       (cognitoSetup env1 name s).poolId ∧
     (cognitoSetup env2 name (cognitoSetup env1 name s).store).clientId =
       (cognitoSetup env1 name s).clientId ∧
     (cognitoSetup env2 name (cognitoSetup env1 name s).store).discoveryUrl =
       (cognitoSetup env1 name s).discoveryUrl) ∧
    (∀ (env3 : CogEnv) (s3 : Store) (v : Str), s3 (kUserPool name) = some v → properVal v →
      countCreations (cognitoSetup env3 name s3).trace = 0) := by
  have hget0 : getOrEmpty s (kUserPool name) = [] := by simp [getOrEmpty, h0]
  have hbr1 : cognitoSetup env1 name s =
      { store := ((s.put (kUserPool name) env1.newPoolId).put (kClientId name)
          env1.newClientId).put (kDiscovery name) (canonicalUrl env1.region env1.newPoolId),
        poolId := env1.newPoolId, clientId := env1.newClientId,
        discoveryUrl := canonicalUrl env1.region env1.newPoolId,
        trace := [.createPool, .putParam (kUserPool name) env1.newPoolId, .createClient,
                  .createUser, .setPassword,
                  .putParam (kClientId name) env1.newClientId,
                  .putParam (kDiscovery name) (canonicalUrl env1.region env1.newPoolId)] } := by
    simp [cognitoSetup, hget0]
  have hsPool : (cognitoSetup env1 name s).store (kUserPool name) = some env1.newPoolId := by
    rw [hbr1]
    show (((s.put (kUserPool name) env1.newPoolId).put (kClientId name)
      env1.newClientId).put (kDiscovery name) (canonicalUrl env1.region env1.newPoolId))
      (kUserPool name) = some env1.newPoolId
    rw [put_other _ _ _ _ (kUserPool_ne_kDiscovery name),
        put_other _ _ _ _ (kUserPool_ne_kClientId name), put_same]
  have hsClient : (cognitoSetup env1 name s).store (kClientId name) = some env1.newClientId := by
    rw [hbr1]
    show (((s.put (kUserPool name) env1.newPoolId).put (kClientId name)
      env1.newClientId).put (kDiscovery name) (canonicalUrl env1.region env1.newPoolId))
      (kClientId name) = some env1.newClientId
    rw [put_other _ _ _ _ (kClientId_ne_kDiscovery name), put_same]
  have hsDisc : (cognitoSetup env1 name s).store (kDiscovery name) =
      some (canonicalUrl env1.region env1.newPoolId) := by
    rw [hbr1]
    show (((s.put (kUserPool name) env1.newPoolId).put (kClientId name)
      env1.newClientId).put (kDiscovery name) (canonicalUrl env1.region env1.newPoolId))
      (kDiscovery name) = some (canonicalUrl env1.region env1.newPoolId)
    rw [put_same]
  have hr2 : cognitoSetup env2 name (cognitoSetup env1 name s).store =
      { store := (cognitoSetup env1 name s).store, poolId := env1.newPoolId,
        clientId := env1.newClientId,
        discoveryUrl := canonicalUrl env1.region env1.newPoolId, trace := [] } := by
    generalize hS : (cognitoSetup env1 name s).store = S at hsPool hsClient hsDisc ⊢
    simp [cognitoSetup, getOrEmpty, hsPool, hsClient, hsDisc, hp.1, hp.2, hc,
      canonicalUrl_ne_nil env1.region env1.newPoolId]
  refine ⟨?_, ?_, ?_, ?_, ?_, ?_⟩
  · rw [hbr1]; rfl
  · rw [hbr1]; rfl
  · rw [hbr1]; rfl
  · rw [hbr1]; rfl
  · rw [hr2, hbr1]
    exact ⟨rfl, rfl, rfl, rfl, rfl⟩
  · intro env3 s3 v hv hpv
    have hg : getOrEmpty s3 (kUserPool name) = v := by simp [getOrEmpty, hv]
    by_cases hcd : getOrEmpty s3 (kClientId name) = [] ∨ getOrEmpty s3 (kDiscovery name) = []
    · simp [cognitoSetup, hg, hpv.1, hpv.2, hcd, countCreations]
    · simp [cognitoSetup, hg, hpv.1, hpv.2, hcd, countCreations]

/-- Witness for C1 at a concrete fresh store and environments. -/
theorem deploy_cognito_idempotent_witness :
    ((fun _ : Str => (none : Option Str)) (kUserPool uName) = none) ∧
    properVal (strOf "us-east-1_NEW") ∧
    countCreations (cognitoSetup
      ⟨regionFix, strOf "us-east-1_NEW", strOf "newclient", strOf "liveclient"⟩ uName
      (fun _ => none)).trace = 3 ∧
    (cognitoSetup ⟨regionFix, strOf "us-east-1_NEW", strOf "newclient", strOf "liveclient"⟩
      uName (cognitoSetup
        ⟨regionFix, strOf "us-east-1_NEW", strOf "newclient", strOf "liveclient"⟩ uName
        (fun _ => none)).store).trace = [] := by
  have h := deploy_cognito_idempotent
    ⟨regionFix, strOf "us-east-1_NEW", strOf "newclient", strOf "liveclient"⟩
    ⟨regionFix, strOf "us-east-1_NEW", strOf "newclient", strOf "liveclient"⟩
    uName (fun _ => none) rfl ⟨by decide, by decide⟩ (by decide)
  exact ⟨rfl, ⟨by decide, by decide⟩, h.1, h.2.2.2.2.1.1⟩

/-! ## Claim C3: destroy exit-code aggregation -/

/-- C3 (code bug): the destroy script is best-effort on its counted failure
paths (a failed pool deletion is counted, later steps still run, and exit is
1 when the counter is nonzero, 0 when it is zero), but a failing
`batch-delete-image` pipeline is a bare command under `set -e`: the script
aborts on the spot with the command's status, never reaching the Cognito
deletion, the parameter cleanup, the summary or the error-counter exit. -/
theorem destroy_batch_delete_aborts :
    (fullStore (kUserPool uName)).isSome = true ∧
    (destroyRun batchFailEnv uName).stop = .abortedBatchDelete ∧
    (∀ e d x, (destroyRun batchFailEnv uName).stop ≠ .completed e d x) ∧
    DAct.deleteUserPool (strOf "us-east-1_POOL1") ∉ (destroyRun batchFailEnv uName).trace ∧
    (∀ k, DAct.deleteParam k ∉ (destroyRun batchFailEnv uName).trace) ∧
    (destroyRun poolFailEnv uName).stop = .completed 1 5 1 ∧
    (destroyRun benignEnv uName).stop = .completed 0 5 0 := by
  have hstop : (destroyRun batchFailEnv uName).stop = .abortedBatchDelete := by decide
  have htr : (destroyRun batchFailEnv uName).trace =
      [DAct.deleteRuntime (strOf "myagent-AbC123"),
       DAct.batchDelete (strOf "bedrock-agentcore-hotel_booking_agent")] := by decide
  refine ⟨by decide, hstop, ?_, by decide, ?_, by decide, by decide⟩
  · intro e d x
    rw [hstop]
    intro hcontra
    cases hcontra
  · intro k
    rw [htr]
    intro hmem
    rcases List.mem_cons.mp hmem with h | h
    · cases h
    · rcases List.mem_cons.mp h with h | h
      · cases h
      · simp at h

/-! ## Claim C6: parameter-cleanup coverage -/

/-- C6 counterexample: with all eight runtime records present and every
external call succeeding, the destroy run deletes only five parameters and
never deletes the `agent_name`, `ecr_repo_name` or `agent_role_name`
records, contradicting the claim that every key of the persisted layout is
deleted. -/
theorem destroy_param_cleanup_counterexample :
    (fullStore (kAgentName uName)).isSome = true ∧
    (fullStore (kEcrRepo uName)).isSome = true ∧
    (fullStore (kRoleName uName)).isSome = true ∧
    (destroyRun benignEnv uName).stop = .completed 0 5 0 ∧
    DAct.deleteParam (kAgentName uName) ∉ (destroyRun benignEnv uName).trace ∧
    DAct.deleteParam (kEcrRepo uName) ∉ (destroyRun benignEnv uName).trace ∧
    DAct.deleteParam (kRoleName uName) ∉ (destroyRun benignEnv uName).trace := by
  refine ⟨by decide, by decide, by decide, by decide, by decide, by decide, by decide⟩

/-- C6 (amended): the destroy script's parameter cleanup iterates over
exactly five keys — `agent_id`, `agent_arn`, `user_pool_id`, `client_id`,
`discovery_url` — deleting each one that exists and counting successes; a
key that is absent is skipped and contributes nothing to the error counter
(only a present key whose deletion fails does); the `agent_name`,
`ecr_repo_name` and `agent_role_name` records are not in the list. -/
theorem destroy_param_cleanup_amended (env : DestroyEnv) (n : Str) :
    destroyParamKeys n = [kAgentId n, kAgentArn n, kUserPool n, kClientId n, kDiscovery n] ∧
    (ssmPhase env (destroyParamKeys n)).deleted =
      (destroyParamKeys n).countP (fun k => (env.params k).isSome && env.delParamOk k) ∧
    (ssmPhase env (destroyParamKeys n)).errors =
      (destroyParamKeys n).countP (fun k => (env.params k).isSome && !env.delParamOk k) ∧
    (∀ k ∈ destroyParamKeys n, (env.params k).isSome →
      DAct.deleteParam k ∈ (ssmPhase env (destroyParamKeys n)).acts) ∧
    (∀ k, env.params k = none →
      DAct.deleteParam k ∉ (ssmPhase env (destroyParamKeys n)).acts) ∧
    kAgentName n ∉ destroyParamKeys n ∧
    kEcrRepo n ∉ destroyParamKeys n ∧
    kRoleName n ∉ destroyParamKeys n := by
  refine ⟨rfl, ssm_deleted env _, ssm_errors env _, ?_, ?_, ?_, ?_, ?_⟩
  · intro k hk hs
    exact (ssm_acts_mem env _ k).mpr ⟨hk, hs⟩
  · intro k hnone hmem
    have hs := ((ssm_acts_mem env _ k).mp hmem).2
    rw [hnone] at hs
    cases hs
  · intro hmem
    simp only [destroyParamKeys, kAgentName, kAgentId, kAgentArn, kUserPool, kClientId,
      kDiscovery, List.mem_cons, List.not_mem_nil, or_false] at hmem
    rcases hmem with h | h | h | h | h <;> exact absurd (mkKey_sfx_inj h) (by decide)
  · intro hmem
    simp only [destroyParamKeys, kEcrRepo, kAgentId, kAgentArn, kUserPool, kClientId,
      kDiscovery, List.mem_cons, List.not_mem_nil, or_false] at hmem
    rcases hmem with h | h | h | h | h <;> exact absurd (mkKey_sfx_inj h) (by decide)
  · intro hmem
    simp only [destroyParamKeys, kRoleName, kAgentId, kAgentArn, kUserPool, kClientId,
      kDiscovery, List.mem_cons, List.not_mem_nil, or_false] at hmem
    rcases hmem with h | h | h | h | h <;> exact absurd (mkKey_sfx_inj h) (by decide)

/-- Witness for C6 (amended) at a concrete environment and key. -/
theorem destroy_param_cleanup_amended_witness :
    kAgentArn uName ∈ destroyParamKeys uName ∧
    (benignEnv.params (kAgentArn uName)).isSome = true ∧
    DAct.deleteParam (kAgentArn uName) ∈ (ssmPhase benignEnv (destroyParamKeys uName)).acts :=
  ⟨by decide, by decide,
   (destroy_param_cleanup_amended benignEnv uName).2.2.2.1 (kAgentArn uName)
     (by decide) (by decide)⟩

/-! ## Claim C7: teardown tolerates missing records -/

/-- C7: for every subset of resource records actually present (each present
record holding a usable value, the external calls succeeding), the destroy
run completes with the error-counter exit — it never aborts on an absent
record; every absent record's deletion step is skipped with its warning
logged, and every resource whose record is present is still processed for
deletion. -/
theorem destroy_tolerates_absent_records (env : DestroyEnv) (cli n : Str)
    (hn : n = resolveName env.params cli)
    (hA : okRec env.params (kAgentId n))
    (hU : okRec env.params (kUserPool n))
    (hE : okRec env.params (kEcrRepo n))
    (hR : okRec env.params (kRoleName n))
    (hre : env.repoExists = true) (hpe : env.poolExists = true)
    (hli : env.listImagesOk = true)
    (him : env.imagesJson ≠ strOf "[]" ∧ env.imagesJson ≠ [])
    (hbd : env.batchDeleteOk = true) :
    (∃ e d, (destroyRun env cli).stop = .completed e d (if e = 0 then 0 else 1)) ∧
    (env.params (kAgentId n) = none →
      (∀ x, DAct.deleteRuntime x ∉ (destroyRun env cli).trace) ∧
      DWarn.runtimeSkipped ∈ (destroyRun env cli).warns) ∧
    (∀ v, env.params (kAgentId n) = some v → properVal v →
      DAct.deleteRuntime v ∈ (destroyRun env cli).trace) ∧
    (env.params (kEcrRepo n) = none →
      (∀ x, DAct.batchDelete x ∉ (destroyRun env cli).trace) ∧
      DWarn.ecrSkipped ∈ (destroyRun env cli).warns) ∧
    (∀ v, env.params (kEcrRepo n) = some v → properVal v →
      DAct.batchDelete v ∈ (destroyRun env cli).trace) ∧
    (env.params (kUserPool n) = none →
      (∀ x, DAct.deleteUserPool x ∉ (destroyRun env cli).trace) ∧
      DWarn.poolSkipped ∈ (destroyRun env cli).warns) ∧
    (∀ v, env.params (kUserPool n) = some v → properVal v →
      DAct.deleteUserPool v ∈ (destroyRun env cli).trace) := by
  subst hn
  rw [destroyRun_phases env cli hA hU hE hR (ecrPhase_safe env _ hli hbd)]
  refine ⟨⟨_, _, rfl⟩, ?_, ?_, ?_, ?_, ?_, ?_⟩
  · intro h
    rw [h]
    constructor
    · intro x hx
      simp only [List.mem_append] at hx
      rcases hx with ((hx | hx) | hx) | hx
      · simp [runtimePhase] at hx
      · rcases ecrPhase_acts_shape env _ with he | he <;> rw [he] at hx <;> simp at hx
      · rcases poolPhase_acts_shape env _ with hq | hq <;> rw [hq] at hx <;> simp at hx
      · rcases ssm_acts_only env _ _ hx with ⟨k, hk⟩
        simp at hk
    · simp [runtimePhase, List.mem_append]
  · intro v hv hpv
    rw [hv]
    refine List.mem_append_left _ (List.mem_append_left _ (List.mem_append_left _ ?_))
    simpa using runtimePhase_mem env v hpv.1
  · intro h
    rw [h]
    constructor
    · intro x hx
      simp only [List.mem_append] at hx
      rcases hx with ((hx | hx) | hx) | hx
      · rcases runtimePhase_acts_shape env _ with hr' | hr' <;> rw [hr'] at hx <;> simp at hx
      · simp [ecrPhase] at hx
      · rcases poolPhase_acts_shape env _ with hq | hq <;> rw [hq] at hx <;> simp at hx
      · rcases ssm_acts_only env _ _ hx with ⟨k, hk⟩
        simp at hk
    · simp [ecrPhase, List.mem_append]
  · intro v hv hpv
    rw [hv]
    refine List.mem_append_left _ (List.mem_append_left _ (List.mem_append_right _ ?_))
    simpa using ecrPhase_mem env v hpv.1 hre hli him hbd
  · intro h
    rw [h]
    constructor
    · intro x hx
      simp only [List.mem_append] at hx
      rcases hx with ((hx | hx) | hx) | hx
      · rcases runtimePhase_acts_shape env _ with hr' | hr' <;> rw [hr'] at hx <;> simp at hx
      · rcases ecrPhase_acts_shape env _ with he | he <;> rw [he] at hx <;> simp at hx
      · simp [poolPhase] at hx
      · rcases ssm_acts_only env _ _ hx with ⟨k, hk⟩
        simp at hk
    · simp [poolPhase, List.mem_append]
  · intro v hv hpv
    rw [hv]
    refine List.mem_append_left _ (List.mem_append_right _ ?_)
    simpa using poolPhase_mem env v hpv.1 hpe

/-- Witness for C7 at a store holding the runtime id but no registry name. -/
theorem destroy_tolerates_absent_records_witness :
    subsetEnv.params (kEcrRepo uName) = none ∧
    (∀ x, DAct.batchDelete x ∉ (destroyRun subsetEnv uName).trace) ∧
    DWarn.ecrSkipped ∈ (destroyRun subsetEnv uName).warns ∧
    DAct.deleteRuntime (strOf "myagent-AbC123") ∈ (destroyRun subsetEnv uName).trace := by
  have h := destroy_tolerates_absent_records subsetEnv uName uName (by decide)
    (Or.inr ⟨strOf "myagent-AbC123", by decide, by decide, by decide⟩)
    (Or.inr ⟨strOf "us-east-1_POOL1", by decide, by decide, by decide⟩)
    (Or.inl (by decide))
    (Or.inr ⟨strOf "us-east-1-agentcore-hotel_booking_agent-role", by decide, by decide,
      by decide⟩)
    rfl rfl rfl ⟨by decide, by decide⟩ rfl
  have hecr := h.2.2.2.1 (by decide)
  exact ⟨by decide, hecr.1, hecr.2,
    h.2.2.1 (strOf "myagent-AbC123") (by decide) ⟨by decide, by decide⟩⟩

/-! ## Claim C10: deletion-wait timeout only warns -/

/-- C10: when runtime deletion is initiated successfully but the runtime is
still present after all 30 bounded existence checks, the destroy run emits
the wait-timeout warning without touching the error counter, so with every
other step succeeding it still exits 0. -/
theorem destroy_wait_timeout_not_error (env : DestroyEnv) (cli n v : Str)
    (hn : n = resolveName env.params cli)
    (hv : env.params (kAgentId n) = some v) (hpv : properVal v)
    (hdr : env.deleteRuntimeOk = true)
    (hng : ∀ i, env.runtimeGone i = false)
    (hU : okRec env.params (kUserPool n))
    (hE : okRec env.params (kEcrRepo n))
    (hR : okRec env.params (kRoleName n))
    (hli : env.listImagesOk = true) (hbd : env.batchDeleteOk = true)
    (hdp : env.deletePoolOk = true)
    (hok : ∀ k, env.delParamOk k = true) :
    MAX_WAIT = 30 ∧
    (∃ d, (destroyRun env cli).stop = .completed 0 d 0) ∧
    DWarn.runtimeWaitTimeout ∈ (destroyRun env cli).warns ∧
    DAct.deleteRuntime v ∈ (destroyRun env cli).trace := by
  subst hn
  have hA : okRec env.params (kAgentId (resolveName env.params cli)) := Or.inr ⟨v, hv, hpv⟩
  rw [destroyRun_phases env cli hA hU hE hR (ecrPhase_safe env _ hli hbd)]
  have hre0 : (runtimePhase env
      ((env.params (kAgentId (resolveName env.params cli))).getD [])).2.2 = 0 :=
    runtimePhase_noerr env _ hdr
  have hpe0 : (poolPhase env
      ((env.params (kUserPool (resolveName env.params cli))).getD [])).2.2 = 0 :=
    poolPhase_noerr env _ hdp
  have hse0 : (ssmPhase env (destroyParamKeys (resolveName env.params cli))).errors = 0 := by
    rw [ssm_errors]
    apply List.countP_eq_zero.mpr
    intro k _
    simp [hok k]
  refine ⟨rfl, ⟨(ssmPhase env (destroyParamKeys (resolveName env.params cli))).deleted, ?_⟩,
    ?_, ?_⟩
  · simp [hre0, hpe0, hse0]
  · rw [hv]
    have hw : (runtimePhase env v).2.1 = [.runtimeWaitTimeout] := by
      simp [runtimePhase, hpv.1, hdr, waitDone_false env.runtimeGone hng MAX_WAIT 1]
    simp only [Option.getD_some]
    rw [hw]
    simp [List.mem_append]
  · rw [hv]
    refine List.mem_append_left _ (List.mem_append_left _ (List.mem_append_left _ ?_))
    simpa using runtimePhase_mem env v hpv.1

/-- Witness for C10 at an environment whose runtime never reads as
deleted. -/
theorem destroy_wait_timeout_not_error_witness :
    DWarn.runtimeWaitTimeout ∈ (destroyRun slowDeleteEnv uName).warns ∧
    (destroyRun slowDeleteEnv uName).stop = .completed 0 5 0 :=
  ⟨(destroy_wait_timeout_not_error slowDeleteEnv uName uName (strOf "myagent-AbC123")
      (by decide) (by decide) ⟨by decide, by decide⟩ rfl (fun _ => rfl)
      (Or.inr ⟨strOf "us-east-1_POOL1", by decide, by decide, by decide⟩)
      (Or.inr ⟨strOf "bedrock-agentcore-hotel_booking_agent", by decide, by decide, by decide⟩)
      (Or.inr ⟨strOf "us-east-1-agentcore-hotel_booking_agent-role", by decide, by decide,
        by decide⟩)
      rfl rfl rfl (fun _ => rfl)).2.2.1,
   by decide⟩

/-! ## Claim C9: ARN extraction fallback equivalence -/

lemma grepA3_primary (t : Str) :
    grepA3 agentArnLabel (primaryBlock t) = primaryBlock t := by
  have hl : containsSub agentArnLabel agentArnLabel = true := by decide
  simp [grepA3, primaryBlock, withSeps, hl, List.range_succ]

lemma trBarSpace_id (t : Str) (hw : t.all (fun c => !(isWs c || c == barChar)) = true) :
    trBarSpace t = t := by
  apply List.filter_eq_self.mpr
  intro c hc
  have h1 := List.all_eq_true.mp hw c hc
  simp only [Bool.not_eq_true', Bool.or_eq_false_iff, isWs] at h1
  simp [h1.1.1.1.1, h1.2]

lemma stripTrailNL_id (t : Str) (hnl : ∀ c ∈ t, (c == '\n') = false) :
    stripTrailNL t = t := by
  unfold stripTrailNL
  cases hrev : t.reverse with
  | nil => simp [hrev, List.reverse_eq_nil_iff.mp hrev]
  | cons c cs =>
    have hc : c ∈ t := by
      rw [← List.mem_reverse, hrev]
      exact List.mem_cons_self _ _
    rw [List.dropWhile_cons, hnl c hc]
    simp [← hrev]

lemma arnMethod1_primary (t : Str) (ht : t ≠ [])
    (hAA : containsSub agentArnLabel t = false)
    (hNE : containsSub endpointLabel t = false)
    (hw : t.all (fun c => !(isWs c || c == barChar)) = true) :
    arnMethod1 (primaryBlock t) = t := by
  have hee : containsSub agentArnLabel (strOf "Endpoint: DEFAULT (READY)") = false := by decide
  have hee2 : containsSub endpointLabel (strOf "Endpoint: DEFAULT (READY)") = true := by decide
  have hll : containsSub agentArnLabel agentArnLabel = true := by decide
  have htb : trBarSpace t = t := trBarSpace_id t hw
  have hnl : ∀ c ∈ t, (c == '\n') = false := by
    intro c hc
    have h1 := List.all_eq_true.mp hw c hc
    simp only [Bool.not_eq_true', Bool.or_eq_false_iff, isWs] at h1
    exact h1.1.1.2
  unfold arnMethod1
  rw [grepA3_primary t]
  simp only [primaryBlock, List.filter_cons, List.filter_nil, hll, hAA, hee, hNE, hee2,
    Bool.not_true, Bool.not_false, if_true, if_false, Bool.false_eq_true, Bool.true_eq_false,
    List.map_cons, List.map_nil, joinNL]
  rw [htb, stripTrailNL_id t hnl]
  simp only [ht, if_false]
  have hfl : [t].flatten = t := by simp
  rw [hfl]
  apply List.filter_eq_self.mpr
  intro c hc
  have h1 := List.all_eq_true.mp hw c hc
  simp only [Bool.not_eq_true', Bool.or_eq_false_iff, isWs] at h1
  simp [isWs, h1.1.1.1.1, h1.1.1.1.2, h1.1.1.2, h1.1.2]

lemma arnMethod1_nil (resp : List Str)
    (h : ∀ l ∈ resp, containsSub agentArnLabel l = false) : arnMethod1 resp = [] := by
  unfold arnMethod1
  rw [grepA3_nil _ _ h]
  rfl

/-- C9: for every status output that lacks the `Agent ARN:` block but in
which the inline-pattern strategy finds the identifier `t`, the extraction
function returns `t` via the secondary strategy; and the primary strategy,
run on well-formed output containing the same ARN, yields that same `t` —
the two strategies agree on the identifier. -/
theorem arn_extraction_fallback_equiv (resp : List Str) (t : Str)
    (hno : ∀ l ∈ resp, containsSub agentArnLabel l = false)
    (hm2 : arnMethod2 resp = t) (ht : t ≠ [])
    (hAA : containsSub agentArnLabel t = false)
    (hNE : containsSub endpointLabel t = false)
    (hw : t.all (fun c => !(isWs c || c == barChar)) = true) :
    extract_agent_arn resp = t ∧ extract_agent_arn (primaryBlock t) = t := by
  constructor
  · unfold extract_agent_arn
    rw [arnMethod1_nil resp hno, hm2]
    simp [ht]
  · unfold extract_agent_arn
    rw [arnMethod1_primary t ht hAA hNE hw]
    simp [ht]

/-- Witness for C9 at a concrete inline-only status output. -/
theorem arn_extraction_fallback_equiv_witness :
    arnMethod2 inlineArnResp = sampleArn ∧
    extract_agent_arn inlineArnResp = sampleArn ∧
    extract_agent_arn (primaryBlock sampleArn) = sampleArn := by
  have h := arn_extraction_fallback_equiv inlineArnResp sampleArn (by decide) (by decide)
    (by decide) (by decide) (by decide) (by decide)
  exact ⟨by decide, h.1, h.2⟩

end AgentCore
